import Mathlib

/-!
The EAPOL relay of `main.go` (goeap_proxy).

A shallow embedding of `proxyPackets`, `parsePacket`, `printPacketInfo` and
`EAPTypeString` of `main.go`, together with the library routines they call, embedded
from the sources of the libraries:

* `net.HardwareAddr.String` and `binary.BigEndian.Uint16` of the Go standard library;
* `gopacket.NewPacket`, `Packet.Layer`, `Packet.Data` and the decoders of
  `gopacket/layers` for Ethernet, 802.1Q, EAPOL and EAP.

Every other decoder of `gopacket/layers` is a parameter (`Decoders`): the theorems
hold whatever those decoders do. A decoder that fails, by an error or by a panic that
`NewPacket` recovers, ends the layers with a `DecodeFailure` layer.

Bytes are `UInt8`; the decoded numeric fields (`uint8`, `uint16` in Go) are the
natural numbers they denote. The effects of the loop (log lines, sleeps, writes) are a
list of events; what the connections do (read errors, frames, write errors) is a
script, one step for each iteration.
-/

namespace GoeapProxy

/-! ## Go standard library -/

/-- Go slice expression `data[lo:hi]` (for `lo ≤ hi ≤ len(data)`). -/
def slice (data : List UInt8) (lo hi : Nat) : List UInt8 :=
  (data.take hi).drop lo

/-- Go `binary.BigEndian.Uint16(b)` on the two bytes `b[0]`, `b[1]`:
`uint16(b[1]) | uint16(b[0])<<8`. -/
def Uint16 (b0 b1 : UInt8) : Nat :=
  b1.toNat ||| (b0.toNat <<< 8)

/-- The constant `hexDigit = "0123456789abcdef"` of package `net`, indexed. -/
def hexDigit (n : Nat) : Char :=
  "0123456789abcdef".toList.getD n '0'

/-- Go `net.HardwareAddr.String`, what the verb `%s` prints for a MAC: the bytes in lower-case hexadecimal, two digits each,
separated by colons; the empty address is the empty string. -/
def HardwareAddr.String (a : List UInt8) : String :=
  String.intercalate ":"
    (a.map fun b => String.mk [hexDigit (b.toNat >>> 4), hexDigit (b.toNat &&& 0xF)])

/-- The verb `%d` of `fmt.Sprintf` on an unsigned integer. -/
def fmtD (n : Nat) : String :=
  Nat.repr n

/-! ## gopacket: layers -/

/-- The layer types this program distinguishes; every other registered layer type
is `Other` with its number. -/
inductive LayerType where
  | DecodeFailure
  | Ethernet
  | Dot1Q
  | EAPOL
  | EAP
  | Other (id : Nat)
  deriving DecidableEq, Repr

/-- Struct `layers.Ethernet`, the fields set by `DecodeFromBytes`. -/
structure Ethernet where
  SrcMAC : List UInt8
  DstMAC : List UInt8
  EthernetType : Nat
  Length : Nat
  Payload : List UInt8
  deriving DecidableEq, Repr

/-- Struct `layers.Dot1Q`: the encapsulated type and the payload (the priority, drop
eligibility and VLAN identifier are not read by this program). -/
structure Dot1Q where
  Type_ : Nat
  Payload : List UInt8
  deriving DecidableEq, Repr

/-- Struct `layers.EAPOL`. -/
structure EAPOL where
  Version : Nat
  Type_ : Nat
  Length : Nat
  Payload : List UInt8
  deriving DecidableEq, Repr

/-- Struct `layers.EAP`. -/
structure EAP where
  Code : Nat
  Id : Nat
  Length : Nat
  Type_ : Nat
  TypeData : List UInt8
  Payload : List UInt8
  deriving DecidableEq, Repr

/-- A decoded layer of a packet (`gopacket.Layer`). -/
inductive Layer where
  | ethernet (l : Ethernet)
  | dot1q (l : Dot1Q)
  | eapol (l : EAPOL)
  | eap (l : EAP)
  | decodeFailure
  | other (id : Nat)
  deriving DecidableEq, Repr

/-- Go `Layer.LayerType()`. -/
def Layer.LayerType : Layer → LayerType
  | .ethernet _ => .Ethernet
  | .dot1q _ => .Dot1Q
  | .eapol _ => .EAPOL
  | .eap _ => .EAP
  | .decodeFailure => .DecodeFailure
  | .other id => .Other id

/-- Type assertion `l.(*layers.Ethernet)`. -/
def Layer.asEthernet : Layer → Option Ethernet
  | .ethernet l => some l
  | _ => none

/-- Type assertion `l.(*layers.EAPOL)`. -/
def Layer.asEAPOL : Layer → Option EAPOL
  | .eapol l => some l
  | _ => none

/-- Type assertion `l.(*layers.EAP)`. -/
def Layer.asEAP : Layer → Option EAP
  | .eap l => some l
  | _ => none

/-- Constant `EthernetTypeLLC`. -/
def EthernetTypeLLC : Nat := 0

/-- Constant `EthernetTypeDot1Q`. -/
def EthernetTypeDot1Q : Nat := 0x8100

/-- Constant `EthernetTypeEAPOL`. -/
def EthernetTypeEAPOL : Nat := 0x888E

/-- Constant `EAPOLTypeEAP`. -/
def EAPOLTypeEAP : Nat := 0

/-- Constant `EAPOLTypeKey`. -/
def EAPOLTypeKey : Nat := 3

/-- The decoders of `gopacket/layers` that are not embedded here.

* `EthernetType t payload`: the layers added by `EthernetTypeMetadata[t].DecodeWith`
  for an Ethernet type `t` other than EAPOL and Dot1Q (a failed decoding ends in
  `Layer.decodeFailure`);
* `Dot1QNext t payload`: the layers added after an 802.1Q tag whose encapsulated
  type `t` is not EAPOL;
* `EAPOLKey payload`: the layer types added by `decodeEAPOLKey` (EAPOLKey,
  Dot11InformationElement, Payload, DecodeFailure), by number. -/
structure Decoders where
  EthernetType : Nat → List UInt8 → List Layer
  Dot1QNext : Nat → List UInt8 → List Layer
  EAPOLKey : List UInt8 → List Nat

/-- The library with no decoder registered besides Ethernet, Dot1Q, EAPOL and EAP:
an unregistered Ethernet type decodes to a failure, an unregistered layer type
ends the decoding. -/
def Decoders.unregistered : Decoders where
  EthernetType := fun _ _ => [Layer.decodeFailure]
  Dot1QNext := fun _ _ => []
  EAPOLKey := fun _ => [0]

/-! ## gopacket: decoding -/

/-- Go `eagerPacket.NextDecoder`: an empty payload ends the decoding, otherwise the
next decoder runs on the payload of the last layer. -/
def NextDecoder (next : List UInt8 → List Layer) (payload : List UInt8) : List Layer :=
  if payload.length = 0 then [] else next payload

/-- Go `(*EAP).DecodeFromBytes` (gopacket, layers/eap.go): a header of four bytes,
code, identifier and length, whose length field is at least 4 and at most the number
of bytes at hand. -/
def EAP.DecodeFromBytes (data : List UInt8) : Option EAP :=
  if data.length < 4 then none
  else
    let Code := (data.getD 0 0).toNat
    let Id := (data.getD 1 0).toNat
    let Length := Uint16 (data.getD 2 0) (data.getD 3 0)
    if data.length < Length then none
    else if Length > 4 then
      some { Code := Code, Id := Id, Length := Length,
             Type_ := (data.getD 4 0).toNat, TypeData := data.drop 5,
             Payload := data.drop Length }
    else if Length = 4 then
      some { Code := Code, Id := Id, Length := Length,
             Type_ := 0, TypeData := [],
             Payload := data.drop Length }
    else none

/-- Function `decodeEAP`: an EAP layer, after which the decoding ends
(`NextLayerType` is `LayerTypeZero`). -/
def decodeEAP (data : List UInt8) : List Layer :=
  match EAP.DecodeFromBytes data with
  | none => [Layer.decodeFailure]
  | some e => [Layer.eap e]

/-- Go `(*EAPOL).DecodeFromBytes` (gopacket, layers/eapol.go): a header of four bytes,
version, type and length. -/
def EAPOL.DecodeFromBytes (data : List UInt8) : Option EAPOL :=
  if data.length < 4 then none
  else
    some { Version := (data.getD 0 0).toNat,
           Type_ := (data.getD 1 0).toNat,
           Length := Uint16 (data.getD 2 0) (data.getD 3 0),
           Payload := data.drop 4 }

/-- Function `decodeEAPOL`: the EAPOL layer, then the decoder of its type: EAP for
EAP-Packet, EAPOLKey for Key, none for any other type. -/
def decodeEAPOL (reg : Decoders) (data : List UInt8) : List Layer :=
  match EAPOL.DecodeFromBytes data with
  | none => [Layer.decodeFailure]
  | some e =>
    Layer.eapol e ::
      (if e.Type_ = EAPOLTypeEAP then NextDecoder decodeEAP e.Payload
       else if e.Type_ = EAPOLTypeKey then
         NextDecoder (fun d => (reg.EAPOLKey d).map Layer.other) e.Payload
       else [])

/-- Go `(*Dot1Q).DecodeFromBytes` (gopacket, layers/dot1q.go): a tag of four bytes,
whose last two are the encapsulated Ethernet type. -/
def Dot1Q.DecodeFromBytes (data : List UInt8) : Option Dot1Q :=
  if data.length < 4 then none
  else
    some { Type_ := Uint16 (data.getD 2 0) (data.getD 3 0),
           Payload := data.drop 4 }

/-- Function `decodeDot1Q`: the 802.1Q layer, then the decoder of the encapsulated type. -/
def decodeDot1Q (reg : Decoders) (data : List UInt8) : List Layer :=
  match Dot1Q.DecodeFromBytes data with
  | none => [Layer.decodeFailure]
  | some d =>
    Layer.dot1q d ::
      (if d.Type_ = EthernetTypeEAPOL then NextDecoder (decodeEAPOL reg) d.Payload
       else reg.Dot1QNext d.Type_ d.Payload)

/-- Go `(*Ethernet).DecodeFromBytes` (gopacket, layers/ethernet.go): a header of 14
bytes; a type field below 0x0600 is a length, of an LLC frame. -/
def Ethernet.DecodeFromBytes (data : List UInt8) : Option Ethernet :=
  if data.length < 14 then none
  else
    let DstMAC := slice data 0 6
    let SrcMAC := slice data 6 12
    let EthernetType := Uint16 (data.getD 12 0) (data.getD 13 0)
    let Payload := data.drop 14
    if EthernetType < 0x0600 then
      some { SrcMAC := SrcMAC, DstMAC := DstMAC,
             EthernetType := EthernetTypeLLC,
             Length := EthernetType,
             Payload := if Payload.length > EthernetType
                        then Payload.take EthernetType else Payload }
    else
      some { SrcMAC := SrcMAC, DstMAC := DstMAC,
             EthernetType := EthernetType,
             Length := 0,
             Payload := Payload }

/-- Go `EthernetType.Decode`: the decoder registered for an Ethernet type. -/
def EthernetType.Decode (reg : Decoders) (t : Nat) (data : List UInt8) : List Layer :=
  if t = EthernetTypeEAPOL then decodeEAPOL reg data
  else if t = EthernetTypeDot1Q then decodeDot1Q reg data
  else reg.EthernetType t data

/-- Function `decodeEthernet`: the Ethernet layer, then the decoder of its Ethernet type. -/
def decodeEthernet (reg : Decoders) (data : List UInt8) : List Layer :=
  match Ethernet.DecodeFromBytes data with
  | none => [Layer.decodeFailure]
  | some eth =>
    Layer.ethernet eth :: NextDecoder (EthernetType.Decode reg eth.EthernetType) eth.Payload

/-- A decoded packet (`gopacket.Packet`): its bytes and its layers. -/
structure Packet where
  data : List UInt8
  layers : List Layer
  deriving DecidableEq, Repr

/-- Go `gopacket.NewPacket(data, layers.LayerTypeEthernet, gopacket.Default)`: the
packet keeps a copy of `data` and is decoded at once, from the Ethernet layer. -/
def NewPacket (reg : Decoders) (data : List UInt8) : Packet :=
  { data := data, layers := decodeEthernet reg data }

/-- Go `Packet.Data()`. -/
def Packet.Data (p : Packet) : List UInt8 :=
  p.data

/-- Go `Packet.Layer(t)`: the first layer of type `t`, or nil. -/
def Packet.Layer (p : Packet) (t : LayerType) : Option Layer :=
  p.layers.find? fun l => decide (l.LayerType = t)

/-- Go `EAPOLType.String()` (gopacket, layers/enums.go): the name in
`EAPOLTypeMetadata`, what the verb `%s` prints for `eapol.Type`. -/
def EAPOLType.String (t : Nat) : String :=
  if t = EAPOLTypeEAP then "EAP"
  else if t = EAPOLTypeKey then "EAPOLKey"
  else "UnknownEAPOLType"

/-! ## main.go -/

/-- What a run of `proxyPackets` does to the outside: a line handed to package `log`
(without the time stamp the logger puts before it), a call of `time.Sleep` with its
duration in milliseconds, a call of `dstConn.WriteTo` with its bytes. -/
inductive Event where
  | log (line : String)
  | sleep (ms : Nat)
  | write (b : List UInt8)
  deriving DecidableEq, Repr

/-- Function `EAPTypeString` of main.go (lines 173-185); an `EAPCode` is a `uint8`. -/
def EAPTypeString (code : Nat) : String :=
  match code with
  | 1 => "Request"
  | 2 => "Response"
  | 3 => "Success"
  | 4 => "Failure"
  | _ => "Unknown"

/-- Function `parsePacket` of main.go (lines 140-149): the decoded packet when it has an EAPOL layer; otherwise nil,
after the line "Not an EAPOL Packet" is logged. The first component is what
the call logs. -/
def parsePacket (reg : Decoders) (data : List UInt8) : List Event × Option Packet :=
  let packet := NewPacket reg data
  let eapolLayer := packet.Layer LayerType.EAPOL
  match eapolLayer with
  | none => ([Event.log "Not an EAPOL Packet"], none)
  | some _ => ([], some packet)

/-- Function `printPacketInfo` of main.go (lines 151-171): the line handed to `log.Println`; `none` when the function
dereferences a nil layer (a run-time panic in Go). -/
def printPacketInfo (src dst : String) (packet : Packet) : Option String :=
  let ethernetLayer := packet.Layer LayerType.Ethernet
  let eapLayer := packet.Layer LayerType.EAP
  let eapolLayer := packet.Layer LayerType.EAPOL
  match ethernetLayer.bind Layer.asEthernet, eapolLayer.bind Layer.asEAPOL with
  | some ethernetPacket, some eapol =>
    let line := src ++ ": "
    let line := line ++ (HardwareAddr.String ethernetPacket.SrcMAC ++ " > " ++
      HardwareAddr.String ethernetPacket.DstMAC ++ ", " ++
      EAPOLType.String eapol.Type_ ++ " v" ++ fmtD eapol.Version ++
      ", len " ++ fmtD eapol.Length)
    match eapLayer with
    | none => some (line ++ (" > " ++ dst))
    | some l =>
      match l.asEAP with
      | none => none
      | some eap =>
        let codeString := EAPTypeString eap.Code
        let line := line ++ (", " ++ codeString ++ " (" ++ fmtD eap.Code ++ ") id " ++
          fmtD eap.Id)
        some (line ++ (" > " ++ dst))
  | _, _ => none

/-- What `srcConn.ReadFrom` meets on one call: an error, given by its message, or a
frame on the wire. -/
inductive ReadResult where
  | err (e : String)
  | frame (b : List UInt8)
  deriving DecidableEq, Repr

/-- Go `srcConn.ReadFrom(recvBuf)`: the number of bytes read, the buffer after the call
and the error. A frame is copied to the start of the buffer, cut at the length of
the buffer. -/
def ReadFrom (r : ReadResult) (recvBuf : List UInt8) : Nat × List UInt8 × Option String :=
  match r with
  | .err e => (0, recvBuf, some e)
  | .frame b => (min b.length recvBuf.length,
                 b.take recvBuf.length ++ recvBuf.drop b.length, none)

/-- The outside of one iteration of the loop of `proxyPackets`: what the read meets,
and the error of `dstConn.WriteTo` (nil when the write succeeds), consulted only if
the iteration writes. -/
structure Step where
  read : ReadResult
  write : Option String
  deriving DecidableEq, Repr

/-- The result of one iteration: its events in order, the receive buffer after it,
and whether it ended in a panic. -/
structure Iteration where
  events : List Event
  recvBuf : List UInt8
  panicked : Bool
  deriving DecidableEq, Repr

/-- One iteration of the `for` loop of `proxyPackets` (main.go, lines 113-135). -/
def proxyPackets.iteration (reg : Decoders) (srcName dstName : String)
    (recvBuf : List UInt8) (s : Step) : Iteration :=
  match ReadFrom s.read recvBuf with
  | (_, recvBuf, some err) =>
    { events := [Event.log ("unexpected read error: " ++ err), Event.sleep 500],
      recvBuf := recvBuf, panicked := false }
  | (size, recvBuf, none) =>
    match parsePacket reg (slice recvBuf 0 size) with
    | (logged, none) => { events := logged, recvBuf := recvBuf, panicked := false }
    | (logged, some packet) =>
      match printPacketInfo srcName dstName packet with
      | none => { events := logged, recvBuf := recvBuf, panicked := true }
      | some line =>
        let done := logged ++ [Event.log line, Event.write packet.Data]
        match s.write with
        | some err =>
          { events := done ++ [Event.log ("unexpected write error: " ++ err)],
            recvBuf := recvBuf, panicked := false }
        | none => { events := done, recvBuf := recvBuf, panicked := false }

/-- The receive buffer `make([]byte, 1500)` of `proxyPackets`. -/
def recvBuf0 : List UInt8 :=
  List.replicate 1500 0

/-- The loop of `proxyPackets` from a given receive buffer, run for as many
iterations as reads are scripted (the loop itself has no exit; after the last
scripted read it would block in `ReadFrom`). A panic ends the run. -/
def proxyPackets.loop (reg : Decoders) (srcName dstName : String) :
    List UInt8 → List Step → List Event
  | _, [] => []
  | recvBuf, s :: rest =>
    let it := proxyPackets.iteration reg srcName dstName recvBuf s
    if it.panicked then it.events
    else it.events ++ proxyPackets.loop reg srcName dstName it.recvBuf rest

/-- Function `proxyPackets` of main.go (lines 109-138): the loop, started on a fresh receive buffer of 1500 bytes. -/
def proxyPackets (reg : Decoders) (srcName dstName : String) (steps : List Step) :
    List Event :=
  proxyPackets.loop reg srcName dstName recvBuf0 steps

/-- The bytes written to the destination connection, in order. -/
def writes : List Event → List (List UInt8)
  | [] => []
  | Event.write b :: es => b :: writes es
  | _ :: es => writes es

/-- The lines logged, in order. -/
def logs : List Event → List String
  | [] => []
  | Event.log l :: es => l :: logs es
  | _ :: es => logs es

/-- The durations slept, in milliseconds, in order. -/
def sleeps : List Event → List Nat
  | [] => []
  | Event.sleep ms :: es => ms :: sleeps es
  | _ :: es => sleeps es

/-- The EAP message that belongs to the first EAPOL layer of a list of layers: the one
`decodeEAPOL` has `decodeEAP` decode from the payload of that layer when its type is
EAP-Packet; none when there is no EAPOL layer, or its type is another, or its payload
is not a well-formed EAP message. -/
def expectedEAP (ls : List Layer) : Option Layer :=
  match ls.find? (fun l => decide (l.LayerType = LayerType.EAPOL)) with
  | some (Layer.eapol e) =>
    if e.Type_ = EAPOLTypeEAP then (EAP.DecodeFromBytes e.Payload).map Layer.eap else none
  | _ => none

/-- What is assumed of the decoders that are not embedded, where a theorem says so: in
`gopacket/layers` the EAP decoder is registered for the EAPOL type EAP-Packet only, so
in the layers any decoder adds, the first EAP layer is the one decoded from the first
EAPOL layer. -/
def Decoders.EAPOnlyAfterEAPOL (reg : Decoders) : Prop :=
  (∀ t d, (reg.EthernetType t d).find? (fun l => decide (l.LayerType = LayerType.EAP))
      = expectedEAP (reg.EthernetType t d)) ∧
  (∀ t d, (reg.Dot1QNext t d).find? (fun l => decide (l.LayerType = LayerType.EAP))
      = expectedEAP (reg.Dot1QNext t d))

/-! ## Frames used in the examples -/

/-- Ethernet(dst 01:80:c2:00:00:03, src aa:aa:aa:aa:aa:aa, type 0x888E),
EAPOL(version 1, EAP-Packet, length 5), EAP(Request, id 10, length 5, type 1). -/
def frameRequest : List UInt8 :=
  [0x01, 0x80, 0xc2, 0x00, 0x00, 0x03, 0xaa, 0xaa, 0xaa, 0xaa, 0xaa, 0xaa, 0x88, 0x8e,
   0x01, 0x00, 0x00, 0x05,
   0x01, 0x0a, 0x00, 0x05, 0x01]

/-- An IPv4 frame: Ethernet type 0x0800 and a 20-byte IPv4 header. -/
def frameIPv4 : List UInt8 :=
  [0x01, 0x80, 0xc2, 0x00, 0x00, 0x03, 0xaa, 0xaa, 0xaa, 0xaa, 0xaa, 0xaa, 0x08, 0x00,
   0x45, 0x00, 0x00, 0x14, 0x00, 0x00, 0x00, 0x00, 0x40, 0x11, 0x00, 0x00,
   0x0a, 0x00, 0x00, 0x01, 0x0a, 0x00, 0x00, 0x02]

/-- An EAPOL frame inside an 802.1Q tag: Ethernet type 0x8100, tag (VLAN 1, type
0x888E), EAPOL(version 1, Start, length 0). -/
def frameVLAN : List UInt8 :=
  [0x01, 0x80, 0xc2, 0x00, 0x00, 0x03, 0xaa, 0xaa, 0xaa, 0xaa, 0xaa, 0xaa, 0x81, 0x00,
   0x00, 0x01, 0x88, 0x8e,
   0x01, 0x01, 0x00, 0x00]

/-- The EAP request of `frameRequest` inside an 802.1Q tag (VLAN 1). -/
def frameVLANRequest : List UInt8 :=
  [0x01, 0x80, 0xc2, 0x00, 0x00, 0x03, 0xaa, 0xaa, 0xaa, 0xaa, 0xaa, 0xaa, 0x81, 0x00,
   0x00, 0x01, 0x88, 0x8e,
   0x01, 0x00, 0x00, 0x05,
   0x01, 0x0a, 0x00, 0x05, 0x01]

/-- An EAPOL frame of type EAP-Packet whose body is missing: Ethernet type 0x888E,
EAPOL(version 1, EAP-Packet, length 0). -/
def frameNoBody : List UInt8 :=
  [0x01, 0x80, 0xc2, 0x00, 0x00, 0x03, 0xaa, 0xaa, 0xaa, 0xaa, 0xaa, 0xaa, 0x88, 0x8e,
   0x01, 0x00, 0x00, 0x00]

/-! ## Lemmas on the library routines -/

/-- Go `binary.BigEndian.Uint16` is the first byte times 256 plus the second. -/
theorem Uint16_eq (b0 b1 : UInt8) : Uint16 b0 b1 = b0.toNat * 256 + b1.toNat := by
  unfold Uint16
  have h1 : b1.toNat < 2 ^ 8 := b1.toNat_lt
  rw [Nat.lor_comm, Nat.shiftLeft_eq, Nat.mul_comm, ← Nat.mul_add_lt_is_or h1]

/-- After a frame is read, the first `size` bytes of the buffer are the frame, cut at
the length of the buffer. -/
theorem slice_ReadFrom_frame (b recvBuf : List UInt8) :
    slice (ReadFrom (.frame b) recvBuf).2.1 0 (ReadFrom (.frame b) recvBuf).1
      = b.take recvBuf.length := by
  simp only [ReadFrom, slice, List.drop_zero]
  rw [List.take_append_of_le_length (by simp [List.length_take, Nat.min_comm])]
  apply List.take_of_length_le
  simp [List.length_take, Nat.min_comm]

theorem recvBuf0_length : recvBuf0.length = 1500 :=
  List.length_replicate _ _

/-- The read of `frameRequest` into the fresh buffer. -/
theorem ReadFrom_frameRequest :
    ReadFrom (.frame frameRequest) recvBuf0
      = (23, frameRequest ++ List.replicate 1477 0, none) := by
  have h : frameRequest.length = 23 := by decide
  simp only [ReadFrom, recvBuf0, List.length_replicate, List.drop_replicate, h]
  rw [List.take_of_length_le (by rw [h]; decide)]
  rfl

/-- The read of `frameIPv4` into the fresh buffer. -/
theorem ReadFrom_frameIPv4 :
    ReadFrom (.frame frameIPv4) recvBuf0
      = (34, frameIPv4 ++ List.replicate 1466 0, none) := by
  have h : frameIPv4.length = 34 := by decide
  simp only [ReadFrom, recvBuf0, List.length_replicate, List.drop_replicate, h]
  rw [List.take_of_length_le (by rw [h]; decide)]
  rfl

/-- A layer found by `Packet.Layer(t)` has layer type `t`. -/
theorem layerType_of_Layer {p : Packet} {t : LayerType} {l : Layer}
    (h : p.Layer t = some l) : l.LayerType = t := by
  have := List.find?_some h
  simpa using this

theorem ethernet_of_layerType {l : Layer} (h : l.LayerType = LayerType.Ethernet) :
    ∃ e, l = Layer.ethernet e := by
  cases l <;> simp [Layer.LayerType] at h
  exact ⟨_, rfl⟩

theorem eapol_of_layerType {l : Layer} (h : l.LayerType = LayerType.EAPOL) :
    ∃ e, l = Layer.eapol e := by
  cases l <;> simp [Layer.LayerType] at h
  exact ⟨_, rfl⟩

theorem eap_of_layerType {l : Layer} (h : l.LayerType = LayerType.EAP) :
    ∃ e, l = Layer.eap e := by
  cases l <;> simp [Layer.LayerType] at h
  exact ⟨_, rfl⟩

/-- The layers of a packet decoded from Ethernet: a lone decode failure, or an
Ethernet layer first. -/
theorem decodeEthernet_cases (reg : Decoders) (data : List UInt8) :
    (data.length < 14 ∧ decodeEthernet reg data = [Layer.decodeFailure]) ∨
    (14 ≤ data.length ∧ ∃ eth rest, Ethernet.DecodeFromBytes data = some eth ∧
      decodeEthernet reg data = Layer.ethernet eth :: rest) := by
  unfold decodeEthernet
  by_cases h : data.length < 14
  · left
    simp [Ethernet.DecodeFromBytes, h]
  · right
    refine ⟨by omega, ?_⟩
    cases hd : Ethernet.DecodeFromBytes data with
    | none =>
      simp only [Ethernet.DecodeFromBytes, h, if_false] at hd
      split at hd <;> simp at hd
    | some eth => exact ⟨eth, _, rfl, rfl⟩

/-- What `parsePacket` returns and logs, by whether the packet has an EAPOL layer. -/
theorem parsePacket_none {reg : Decoders} {data : List UInt8}
    (h : (parsePacket reg data).2 = none) :
    parsePacket reg data = ([Event.log "Not an EAPOL Packet"], none) := by
  unfold parsePacket at h ⊢
  cases hl : (NewPacket reg data).Layer LayerType.EAPOL with
  | none => simp [hl]
  | some l => simp [hl] at h

theorem parsePacket_some {reg : Decoders} {data : List UInt8} {p : Packet}
    (h : (parsePacket reg data).2 = some p) :
    parsePacket reg data = ([], some p) ∧ p = NewPacket reg data ∧
      ∃ l, p.Layer LayerType.EAPOL = some l := by
  unfold parsePacket at h ⊢
  cases hl : (NewPacket reg data).Layer LayerType.EAPOL with
  | none => simp [hl] at h
  | some l =>
    simp only [hl] at h ⊢
    have hp : NewPacket reg data = p := by simpa using h
    subst hp
    exact ⟨rfl, rfl, l, hl⟩

/-- A packet with an EAPOL layer has the Ethernet layer as its first layer. -/
theorem NewPacket_ethernet_of_eapol {reg : Decoders} {data : List UInt8} {l : Layer}
    (h : (NewPacket reg data).Layer LayerType.EAPOL = some l) :
    14 ≤ data.length ∧ ∃ eth, Ethernet.DecodeFromBytes data = some eth ∧
      (NewPacket reg data).Layer LayerType.Ethernet = some (Layer.ethernet eth) := by
  rcases decodeEthernet_cases reg data with ⟨_, hd⟩ | ⟨hlen, eth, rest, he, hd⟩
  · simp [Packet.Layer, NewPacket, hd, Layer.LayerType] at h
  · refine ⟨hlen, eth, he, ?_⟩
    simp [Packet.Layer, NewPacket, hd, Layer.LayerType]

/-- On a packet returned by `parsePacket`, `printPacketInfo` dereferences no nil
layer. -/
theorem printPacketInfo_isSome {reg : Decoders} {data : List UInt8} {p : Packet}
    (h : (parsePacket reg data).2 = some p) (src dst : String) :
    ∃ line, printPacketInfo src dst p = some line := by
  obtain ⟨-, hp, l, hl⟩ := parsePacket_some h
  subst hp
  obtain ⟨-, eth, -, heth⟩ := NewPacket_ethernet_of_eapol hl
  obtain ⟨e, rfl⟩ := eapol_of_layerType (layerType_of_Layer hl)
  unfold printPacketInfo
  simp only [heth, hl, Option.bind, Layer.asEthernet, Layer.asEAPOL]
  cases hq : (NewPacket reg data).Layer LayerType.EAP with
  | none => exact ⟨_, rfl⟩
  | some q =>
    obtain ⟨a, rfl⟩ := eap_of_layerType (layerType_of_Layer hq)
    exact ⟨_, rfl⟩

/-! ## Lemmas on the loop -/

theorem writes_append (xs ys : List Event) : writes (xs ++ ys) = writes xs ++ writes ys := by
  induction xs with
  | nil => rfl
  | cons x xs ih => cases x <;> simp [writes, ih]

theorem logs_append (xs ys : List Event) : logs (xs ++ ys) = logs xs ++ logs ys := by
  induction xs with
  | nil => rfl
  | cons x xs ih => cases x <;> simp [logs, ih]

theorem sleeps_append (xs ys : List Event) : sleeps (xs ++ ys) = sleeps xs ++ sleeps ys := by
  induction xs with
  | nil => rfl
  | cons x xs ih => cases x <;> simp [sleeps, ih]

/-- An iteration whose read fails: the error is logged, the loop sleeps 500 ms. -/
theorem iteration_err (reg : Decoders) (srcName dstName : String) (recvBuf : List UInt8)
    (w : Option String) (e : String) :
    proxyPackets.iteration reg srcName dstName recvBuf ⟨ReadResult.err e, w⟩
      = { events := [Event.log ("unexpected read error: " ++ e), Event.sleep 500],
          recvBuf := recvBuf, panicked := false } := by
  simp [proxyPackets.iteration, ReadFrom]

/-- A successful read never reports an error, a failed one always does. -/
theorem ReadFrom_none {r : ReadResult} {recvBuf buf : List UInt8} {size : Nat}
    (h : ReadFrom r recvBuf = (size, buf, none)) : ∃ f, r = ReadResult.frame f := by
  cases r with
  | err e => simp [ReadFrom] at h
  | frame f => exact ⟨f, rfl⟩

/-- An iteration whose frame is not classified as EAPOL. -/
theorem iteration_nil (reg : Decoders) (srcName dstName : String) (recvBuf : List UInt8)
    (s : Step) {size : Nat} {buf : List UInt8} (hread : ReadFrom s.read recvBuf = (size, buf, none))
    (hnil : (parsePacket reg (slice buf 0 size)).2 = none) :
    proxyPackets.iteration reg srcName dstName recvBuf s
      = { events := [Event.log "Not an EAPOL Packet"], recvBuf := buf, panicked := false } := by
  simp [proxyPackets.iteration, hread, parsePacket_none hnil]

/-- An iteration whose frame is classified as EAPOL: the summary line is logged, the
bytes of the packet are written, a write error is logged. -/
theorem iteration_some (reg : Decoders) (srcName dstName : String) (recvBuf : List UInt8)
    (s : Step) {size : Nat} {buf : List UInt8} {p : Packet} (hread : ReadFrom s.read recvBuf = (size, buf, none))
    (hp : (parsePacket reg (slice buf 0 size)).2 = some p) :
    ∃ line, printPacketInfo srcName dstName p = some line ∧
      proxyPackets.iteration reg srcName dstName recvBuf s
        = { events := [Event.log line, Event.write (slice buf 0 size)] ++
              (match s.write with
               | some err => [Event.log ("unexpected write error: " ++ err)]
               | none => []),
            recvBuf := buf, panicked := false } := by
  obtain ⟨line, hline⟩ := printPacketInfo_isSome hp srcName dstName
  obtain ⟨hpp, hnew, -⟩ := parsePacket_some hp
  refine ⟨line, hline, ?_⟩
  have hdata : p.Data = slice buf 0 size := by rw [hnew]; rfl
  cases hw : s.write <;>
    simp [proxyPackets.iteration, hread, hpp, hline, hw, hdata]

/-- No iteration ends in a panic. -/
theorem iteration_panicked (reg : Decoders) (srcName dstName : String)
    (recvBuf : List UInt8) (s : Step) :
    (proxyPackets.iteration reg srcName dstName recvBuf s).panicked = false := by
  rcases hr : ReadFrom s.read recvBuf with ⟨size, buf, err⟩
  cases err with
  | some e => simp [proxyPackets.iteration, hr]
  | none =>
    cases hp : (parsePacket reg (slice buf 0 size)).2 with
    | none => rw [iteration_nil reg srcName dstName recvBuf s hr hp]
    | some p =>
      obtain ⟨line, -, hit⟩ := iteration_some reg srcName dstName recvBuf s hr hp
      rw [hit]

/-- The bytes an iteration writes were read in it and classified as EAPOL. -/
theorem iteration_writes_classified {reg : Decoders} {srcName dstName : String}
    {recvBuf : List UInt8} {s : Step} {b : List UInt8}
    (hb : b ∈ writes (proxyPackets.iteration reg srcName dstName recvBuf s).events) :
    (parsePacket reg b).2 ≠ none := by
  rcases hr : ReadFrom s.read recvBuf with ⟨size, buf, err⟩
  cases err with
  | some e =>
    simp [proxyPackets.iteration, hr, writes] at hb
  | none =>
    cases hp : (parsePacket reg (slice buf 0 size)).2 with
    | none =>
      rw [iteration_nil reg srcName dstName recvBuf s hr hp] at hb
      simp [writes] at hb
    | some p =>
      obtain ⟨line, -, hit⟩ := iteration_some reg srcName dstName recvBuf s hr hp
      rw [hit] at hb
      have : b = slice buf 0 size := by
        cases hw : s.write <;> simpa [writes, hw] using hb
      rw [this, hp]
      simp

/-- Every write of a run is of bytes classified as EAPOL. -/
theorem loop_writes_classified (reg : Decoders) (srcName dstName : String)
    (steps : List Step) (recvBuf : List UInt8) (b : List UInt8)
    (hb : b ∈ writes (proxyPackets.loop reg srcName dstName recvBuf steps)) :
    (parsePacket reg b).2 ≠ none := by
  induction steps generalizing recvBuf with
  | nil => simp [proxyPackets.loop, writes] at hb
  | cons s rest ih =>
    simp only [proxyPackets.loop, iteration_panicked, Bool.false_eq_true, if_false,
      writes_append, List.mem_append] at hb
    rcases hb with hb | hb
    · exact iteration_writes_classified hb
    · exact ih _ hb

/-- A run that starts with failed reads: each is logged and followed by a sleep, then
the run goes on, from the same buffer, as if they had not happened. -/
theorem loop_failed_reads (reg : Decoders) (srcName dstName : String)
    (recvBuf : List UInt8) (fails : List (String × Option String)) (rest : List Step) :
    proxyPackets.loop reg srcName dstName recvBuf
        (fails.map (fun f => (⟨ReadResult.err f.1, f.2⟩ : Step)) ++ rest)
      = (fails.map fun f =>
          [Event.log ("unexpected read error: " ++ f.1), Event.sleep 500]).flatten
        ++ proxyPackets.loop reg srcName dstName recvBuf rest := by
  induction fails with
  | nil => simp
  | cons f fails ih =>
    simp [proxyPackets.loop, iteration_err, ih]

/-- A run of two scripts in a row is the run of the first, then the run of the second
from the receive buffer the first leaves. -/
theorem loop_append (reg : Decoders) (srcName dstName : String) (xs : List Step)
    (recvBuf : List UInt8) :
    ∃ buf, ∀ ys, proxyPackets.loop reg srcName dstName recvBuf (xs ++ ys)
      = proxyPackets.loop reg srcName dstName recvBuf xs
        ++ proxyPackets.loop reg srcName dstName buf ys := by
  induction xs generalizing recvBuf with
  | nil => exact ⟨recvBuf, fun ys => by simp [proxyPackets.loop]⟩
  | cons s xs ih =>
    obtain ⟨buf, hbuf⟩ :=
      ih (proxyPackets.iteration reg srcName dstName recvBuf s).recvBuf
    refine ⟨buf, fun ys => ?_⟩
    simp only [List.cons_append, proxyPackets.loop, iteration_panicked,
      Bool.false_eq_true, if_false, List.append_assoc]
    exact congrArg _ (hbuf ys)


theorem logs_failed_reads (fails : List (String × Option String)) :
    logs (fails.map fun f =>
      [Event.log ("unexpected read error: " ++ f.1), Event.sleep 500]).flatten
      = fails.map (fun f => "unexpected read error: " ++ f.1) := by
  induction fails with
  | nil => rfl
  | cons f fails ih => simp [logs, ih]

theorem sleeps_failed_reads (fails : List (String × Option String)) :
    sleeps (fails.map fun f =>
      [Event.log ("unexpected read error: " ++ f.1), Event.sleep 500]).flatten
      = List.replicate fails.length 500 := by
  induction fails with
  | nil => rfl
  | cons f fails ih => simp [sleeps, ih, List.replicate_succ]

theorem writes_failed_reads (fails : List (String × Option String)) :
    writes (fails.map fun f =>
      [Event.log ("unexpected read error: " ++ f.1), Event.sleep 500]).flatten = [] := by
  induction fails with
  | nil => rfl
  | cons f fails ih => simp [writes, ih]

/-! ## The forwarding loop -/

/-- C1: when a read succeeds and the bytes read, `recvBuf[:size]`, are classified as
EAPOL by `parsePacket`, the iteration issues exactly one write on the destination
connection, of exactly those bytes; and those bytes are the frame that was on the
wire, cut at the length of the receive buffer. -/
theorem proxyPackets_iteration_writes_frame (reg : Decoders) (srcName dstName : String)
    (recvBuf : List UInt8) (s : Step) (size : Nat) (buf : List UInt8)
    (hread : ReadFrom s.read recvBuf = (size, buf, none))
    (hclass : (parsePacket reg (slice buf 0 size)).2 ≠ none) :
    writes (proxyPackets.iteration reg srcName dstName recvBuf s).events = [slice buf 0 size] ∧
      ∀ f, s.read = ReadResult.frame f → slice buf 0 size = f.take recvBuf.length := by
  constructor
  · cases hp : (parsePacket reg (slice buf 0 size)).2 with
    | none => exact absurd hp hclass
    | some p =>
      obtain ⟨line, -, hit⟩ := iteration_some reg srcName dstName recvBuf s hread hp
      rw [hit]
      cases hw : s.write <;> simp [writes]
  · intro f hf
    rw [hf] at hread
    have h := slice_ReadFrom_frame f recvBuf
    rw [hread] at h
    exact h

theorem proxyPackets_iteration_writes_frame_witness :
    (parsePacket Decoders.unregistered (slice (frameRequest ++ List.replicate 1477 0) 0 23)).2
        ≠ none ∧
      writes (proxyPackets.iteration Decoders.unregistered "wan" "router" recvBuf0
        ⟨ReadResult.frame frameRequest, none⟩).events
        = [slice (frameRequest ++ List.replicate 1477 0) 0 23] :=
  ⟨by decide,
   (proxyPackets_iteration_writes_frame Decoders.unregistered "wan" "router" recvBuf0
      ⟨ReadResult.frame frameRequest, none⟩ 23 (frameRequest ++ List.replicate 1477 0)
      ReadFrom_frameRequest (by decide)).1⟩

/-- C2: an iteration whose bytes `parsePacket` returns nil for performs no write on the
destination connection; and in every run of the loop, each write is of bytes that
`parsePacket` classifies as EAPOL. -/
theorem proxyPackets_writes_only_EAPOL (reg : Decoders) (srcName dstName : String) :
    (∀ (recvBuf : List UInt8) (s : Step) (size : Nat) (buf : List UInt8),
      ReadFrom s.read recvBuf = (size, buf, none) →
      (parsePacket reg (slice buf 0 size)).2 = none →
      writes (proxyPackets.iteration reg srcName dstName recvBuf s).events = []) ∧
    (∀ (steps : List Step) (b : List UInt8),
      b ∈ writes (proxyPackets reg srcName dstName steps) → (parsePacket reg b).2 ≠ none) := by
  constructor
  · intro recvBuf s size buf hread hnil
    rw [iteration_nil reg srcName dstName recvBuf s hread hnil]
    rfl
  · intro steps b hb
    exact loop_writes_classified reg srcName dstName steps recvBuf0 b hb

theorem proxyPackets_writes_only_EAPOL_witness :
    writes (proxyPackets.iteration Decoders.unregistered "wan" "router" recvBuf0
      ⟨ReadResult.frame frameIPv4, none⟩).events = [] :=
  (proxyPackets_writes_only_EAPOL Decoders.unregistered "wan" "router").1 recvBuf0
    ⟨ReadResult.frame frameIPv4, none⟩ 34 (frameIPv4 ++ List.replicate 1466 0)
    ReadFrom_frameIPv4 (by decide)

/-- C5: when the read fails N times in a row (`fails`: the error of each failed read),
at the start of a run or after any earlier iterations (`before`), from any state of the
receive buffer, and the run then goes on (`rest`), the run logs one read-error line and
sleeps 500 ms for each failure, N lines and N sleeps of N × 500 ms in all, logs and
writes nothing else meanwhile, does not end, and then continues exactly as it does when
no read has failed: the run with the failed reads is the run without them, with those
N lines and sleeps put in. -/
theorem proxyPackets_failed_reads (reg : Decoders) (srcName dstName : String)
    (before : List Step) (fails : List (String × Option String)) (rest : List Step) :
    ∃ (pre : List Event) (buf : List UInt8),
      pre = (fails.map fun f =>
        [Event.log ("unexpected read error: " ++ f.1), Event.sleep 500]).flatten ∧
      proxyPackets reg srcName dstName
          (before ++ (fails.map (fun f => (⟨ReadResult.err f.1, f.2⟩ : Step)) ++ rest))
        = proxyPackets reg srcName dstName before
            ++ (pre ++ proxyPackets.loop reg srcName dstName buf rest) ∧
      proxyPackets reg srcName dstName (before ++ rest)
        = proxyPackets reg srcName dstName before
            ++ proxyPackets.loop reg srcName dstName buf rest ∧
      (∀ recvBuf : List UInt8,
        proxyPackets.loop reg srcName dstName recvBuf
            (fails.map (fun f => (⟨ReadResult.err f.1, f.2⟩ : Step)) ++ rest)
          = pre ++ proxyPackets.loop reg srcName dstName recvBuf rest) ∧
      logs pre = fails.map (fun f => "unexpected read error: " ++ f.1) ∧
      (logs pre).length = fails.length ∧
      sleeps pre = List.replicate fails.length 500 ∧
      (sleeps pre).sum = fails.length * 500 ∧
      writes pre = [] := by
  obtain ⟨buf, hbuf⟩ := loop_append reg srcName dstName before recvBuf0
  refine ⟨_, buf, rfl, ?_, hbuf rest,
    fun recvBuf => loop_failed_reads reg srcName dstName recvBuf fails rest,
    logs_failed_reads fails, ?_, sleeps_failed_reads fails, ?_, writes_failed_reads fails⟩
  · unfold proxyPackets
    rw [hbuf, loop_failed_reads]
  · rw [logs_failed_reads, List.length_map]
  · rw [sleeps_failed_reads]
    simp

theorem proxyPackets_failed_reads_witness :
    ∃ (pre : List Event) (buf : List UInt8),
      pre = [Event.log "unexpected read error: network is down", Event.sleep 500,
             Event.log "unexpected read error: network is down", Event.sleep 500] ∧
      proxyPackets Decoders.unregistered "wan" "router"
          ([⟨ReadResult.frame frameRequest, none⟩] ++
            ([⟨ReadResult.err "network is down", none⟩,
              ⟨ReadResult.err "network is down", none⟩] ++
             [⟨ReadResult.frame frameNoBody, none⟩]))
        = proxyPackets Decoders.unregistered "wan" "router"
            [⟨ReadResult.frame frameRequest, none⟩]
            ++ (pre ++ proxyPackets.loop Decoders.unregistered "wan" "router" buf
                  [⟨ReadResult.frame frameNoBody, none⟩]) ∧
      sleeps pre = [500, 500] :=
  match proxyPackets_failed_reads Decoders.unregistered "wan" "router"
      [⟨ReadResult.frame frameRequest, none⟩]
      [("network is down", none), ("network is down", none)]
      [⟨ReadResult.frame frameNoBody, none⟩] with
  | ⟨pre, buf, h1, h2, _, _, _, _, h7, _, _⟩ => ⟨pre, buf, h1, h2, h7⟩

/-- C6: `EAPTypeString` is "Request" for 1, "Response" for 2, "Success" for 3,
"Failure" for 4 and "Unknown" for every other code. -/
theorem EAPTypeString_table (c : Nat) :
    EAPTypeString c =
      if c = 1 then "Request" else if c = 2 then "Response"
      else if c = 3 then "Success" else if c = 4 then "Failure" else "Unknown" := by
  match c with
  | 0 => rfl
  | 1 => rfl
  | 2 => rfl
  | 3 => rfl
  | 4 => rfl
  | n + 5 => simp [EAPTypeString]

/-- C8, the claim refuted: the iteration that reads an IPv4 frame (Ethernet type
0x0800), which is not classified as EAPOL, logs a line. -/
theorem proxyPackets_not_silent_counterexample :
    (parsePacket Decoders.unregistered (slice (frameIPv4 ++ List.replicate 1466 0) 0 34)).2
        = none ∧
      logs (proxyPackets.iteration Decoders.unregistered "wan" "router" recvBuf0
        ⟨ReadResult.frame frameIPv4, none⟩).events ≠ [] := by
  have hnil : (parsePacket Decoders.unregistered
      (slice (frameIPv4 ++ List.replicate 1466 0) 0 34)).2 = none := by decide
  refine ⟨hnil, ?_⟩
  rw [iteration_nil Decoders.unregistered "wan" "router" recvBuf0
    ⟨ReadResult.frame frameIPv4, none⟩ ReadFrom_frameIPv4 hnil]
  simp [logs]

/-- C8 as amended: the iteration that reads bytes not classified as EAPOL logs the one
line "Not an EAPOL Packet", does nothing else (no write, no sleep), and the loop goes
on with the next read. -/
theorem proxyPackets_logs_not_EAPOL (reg : Decoders) (srcName dstName : String)
    (recvBuf : List UInt8) (s : Step) (size : Nat) (buf : List UInt8)
    (hread : ReadFrom s.read recvBuf = (size, buf, none))
    (hnil : (parsePacket reg (slice buf 0 size)).2 = none) :
    (proxyPackets.iteration reg srcName dstName recvBuf s).events
        = [Event.log "Not an EAPOL Packet"] ∧
      ∀ rest, proxyPackets.loop reg srcName dstName recvBuf (s :: rest)
        = Event.log "Not an EAPOL Packet" :: proxyPackets.loop reg srcName dstName buf rest := by
  refine ⟨by rw [iteration_nil reg srcName dstName recvBuf s hread hnil], ?_⟩
  intro rest
  simp [proxyPackets.loop, iteration_nil reg srcName dstName recvBuf s hread hnil]

theorem proxyPackets_logs_not_EAPOL_witness :
    (proxyPackets.iteration Decoders.unregistered "wan" "router" recvBuf0
      ⟨ReadResult.frame frameIPv4, none⟩).events = [Event.log "Not an EAPOL Packet"] :=
  (proxyPackets_logs_not_EAPOL Decoders.unregistered "wan" "router" recvBuf0
    ⟨ReadResult.frame frameIPv4, none⟩ 34 (frameIPv4 ++ List.replicate 1466 0)
    ReadFrom_frameIPv4 (by decide)).1

/-- C9: `parsePacket` returns on every byte sequence, nil or a packet; a packet it
returns has a decoded Ethernet layer and a decoded EAPOL layer, and its EAP layer, when
it has one, is a decoded EAP message, so that `printPacketInfo` dereferences no nil
layer on it; and no iteration of the loop ends in a panic. -/
theorem proxyPackets_never_panics (reg : Decoders) (srcName dstName : String)
    (data : List UInt8) :
    ((parsePacket reg data).2 = none ∨ (parsePacket reg data).2 = some (NewPacket reg data)) ∧
    (∀ p, (parsePacket reg data).2 = some p →
      (∃ eth, p.Layer LayerType.Ethernet = some (Layer.ethernet eth)) ∧
      (∃ eapol, p.Layer LayerType.EAPOL = some (Layer.eapol eapol)) ∧
      (∀ l, p.Layer LayerType.EAP = some l → ∃ eap, l = Layer.eap eap) ∧
      ∃ line, printPacketInfo srcName dstName p = some line) ∧
    (∀ (recvBuf : List UInt8) (s : Step),
      (proxyPackets.iteration reg srcName dstName recvBuf s).panicked = false) := by
  refine ⟨?_, ?_, iteration_panicked reg srcName dstName⟩
  · cases hp : (parsePacket reg data).2 with
    | none => exact Or.inl rfl
    | some p => exact Or.inr (by rw [(parsePacket_some hp).2.1])
  · intro p hp
    obtain ⟨-, hnew, l, hl⟩ := parsePacket_some hp
    obtain ⟨e, he⟩ := eapol_of_layerType (layerType_of_Layer hl)
    refine ⟨?_, ⟨e, by rw [hl, he]⟩, ?_, printPacketInfo_isSome hp srcName dstName⟩
    · subst hnew
      obtain ⟨-, eth, -, heth⟩ := NewPacket_ethernet_of_eapol hl
      exact ⟨eth, heth⟩
    · intro q hq
      exact eap_of_layerType (layerType_of_Layer hq)

/-! ## Lemmas on the decoding of EAPOL frames -/

theorem EthernetType.Decode_EAPOL (reg : Decoders) :
    EthernetType.Decode reg EthernetTypeEAPOL = decodeEAPOL reg := by
  funext d
  simp [EthernetType.Decode]

theorem EthernetType.Decode_Dot1Q (reg : Decoders) :
    EthernetType.Decode reg EthernetTypeDot1Q = decodeDot1Q reg := by
  funext d
  have hne : ¬ EthernetTypeDot1Q = EthernetTypeEAPOL := by decide
  simp [EthernetType.Decode, hne]

/-- The layers of a frame whose Ethernet type is EAPOL. -/
theorem decodeEthernet_EAPOL (reg : Decoders) (data : List UInt8) (hlen : 14 ≤ data.length)
    (htype : Uint16 (data.getD 12 0) (data.getD 13 0) = EthernetTypeEAPOL) :
    decodeEthernet reg data
      = Layer.ethernet { SrcMAC := slice data 6 12, DstMAC := slice data 0 6,
                         EthernetType := EthernetTypeEAPOL, Length := 0,
                         Payload := data.drop 14 }
        :: NextDecoder (decodeEAPOL reg) (data.drop 14) := by
  have h14 : ¬ data.length < 14 := by omega
  have h600 : ¬ EthernetTypeEAPOL < 0x0600 := by decide
  simp only [decodeEthernet, Ethernet.DecodeFromBytes, h14, if_false, htype, h600,
    EthernetType.Decode_EAPOL]

/-- The layers of a frame whose Ethernet type is Dot1Q. -/
theorem decodeEthernet_Dot1Q (reg : Decoders) (data : List UInt8) (hlen : 14 ≤ data.length)
    (htype : Uint16 (data.getD 12 0) (data.getD 13 0) = EthernetTypeDot1Q) :
    decodeEthernet reg data
      = Layer.ethernet { SrcMAC := slice data 6 12, DstMAC := slice data 0 6,
                         EthernetType := EthernetTypeDot1Q, Length := 0,
                         Payload := data.drop 14 }
        :: NextDecoder (decodeDot1Q reg) (data.drop 14) := by
  have h14 : ¬ data.length < 14 := by omega
  have h600 : ¬ EthernetTypeDot1Q < 0x0600 := by decide
  simp only [decodeEthernet, Ethernet.DecodeFromBytes, h14, if_false, htype, h600,
    EthernetType.Decode_Dot1Q]

/-- The layers decoded from an EAPOL header and what follows it. -/
theorem decodeEAPOL_of_length (reg : Decoders) (d : List UInt8) (hlen : 4 ≤ d.length) :
    decodeEAPOL reg d
      = Layer.eapol { Version := (d.getD 0 0).toNat, Type_ := (d.getD 1 0).toNat,
                      Length := Uint16 (d.getD 2 0) (d.getD 3 0), Payload := d.drop 4 }
        :: (if (d.getD 1 0).toNat = EAPOLTypeEAP then NextDecoder decodeEAP (d.drop 4)
            else if (d.getD 1 0).toNat = EAPOLTypeKey then
              NextDecoder (fun d => (reg.EAPOLKey d).map Layer.other) (d.drop 4)
            else []) := by
  have h4 : ¬ d.length < 4 := by omega
  simp only [decodeEAPOL, EAPOL.DecodeFromBytes, h4, if_false]

/-- Fewer than four bytes decode to no EAPOL layer. -/
theorem decodeEAPOL_short (reg : Decoders) (d : List UInt8) (hlen : d.length < 4) :
    decodeEAPOL reg d = [Layer.decodeFailure] := by
  simp only [decodeEAPOL, EAPOL.DecodeFromBytes, hlen, if_true]

theorem getD_drop (d : List UInt8) (n i : Nat) : (d.drop n).getD i 0 = d.getD (n + i) 0 := by
  simp [List.getD_eq_getElem?_getD, List.getElem?_drop]

/-- Whether the layers after the Ethernet header of an EAPOL frame hold an EAPOL layer. -/
theorem find_EAPOL_NextDecoder (reg : Decoders) (d : List UInt8) :
    (NextDecoder (decodeEAPOL reg) d).find? (fun l => decide (l.LayerType = LayerType.EAPOL))
      = if 4 ≤ d.length then
          some (Layer.eapol { Version := (d.getD 0 0).toNat, Type_ := (d.getD 1 0).toNat,
                              Length := Uint16 (d.getD 2 0) (d.getD 3 0), Payload := d.drop 4 })
        else none := by
  unfold NextDecoder
  by_cases h0 : d.length = 0
  · simp [h0]
  · by_cases h4 : 4 ≤ d.length
    · simp [h0, h4, decodeEAPOL_of_length reg d h4, Layer.LayerType]
    · have : d.length < 4 := by omega
      simp [h0, h4, decodeEAPOL_short reg d this, Layer.LayerType]

theorem parsePacket_ne_none_iff (reg : Decoders) (data : List UInt8) :
    (parsePacket reg data).2 ≠ none ↔ ∃ l, (NewPacket reg data).Layer LayerType.EAPOL = some l := by
  unfold parsePacket
  cases hl : (NewPacket reg data).Layer LayerType.EAPOL <;> simp [hl]

/-- Whether the layers after the Ethernet header of a tagged EAPOL frame hold an EAPOL
layer. -/
theorem find_EAPOL_Dot1Q (reg : Decoders) (d : List UInt8)
    (htype : Uint16 (d.getD 2 0) (d.getD 3 0) = EthernetTypeEAPOL) :
    ((NextDecoder (decodeDot1Q reg) d).find?
        (fun l => decide (l.LayerType = LayerType.EAPOL))).isSome = decide (8 ≤ d.length) := by
  unfold NextDecoder
  by_cases h0 : d.length = 0
  · simp [h0]
  · by_cases h4 : d.length < 4
    · have h8 : ¬ 8 ≤ d.length := by omega
      simp [h0, h8, decodeDot1Q, Dot1Q.DecodeFromBytes, h4, Layer.LayerType]
    · simp only [h0, if_false, decodeDot1Q, Dot1Q.DecodeFromBytes, h4, htype, if_true]
      rw [List.find?_cons_of_neg _ (by simp [Layer.LayerType]), find_EAPOL_NextDecoder]
      by_cases h8 : 8 ≤ d.length
      · simp [h8]
        omega
      · simp [h8]
        omega


/-- When `(*EAP).DecodeFromBytes` succeeds, and what code and identifier it reads. -/
theorem EAP.DecodeFromBytes_eq_some_iff (d : List UInt8) :
    (∃ e, EAP.DecodeFromBytes d = some e) ↔
      4 ≤ d.length ∧ 4 ≤ Uint16 (d.getD 2 0) (d.getD 3 0) ∧
        Uint16 (d.getD 2 0) (d.getD 3 0) ≤ d.length := by
  unfold EAP.DecodeFromBytes
  dsimp only
  generalize Uint16 (d.getD 2 0) (d.getD 3 0) = L
  split_ifs <;> simp <;> omega

theorem EAP.DecodeFromBytes_fields {d : List UInt8} {e : EAP}
    (h : EAP.DecodeFromBytes d = some e) :
    e.Code = (d.getD 0 0).toNat ∧ e.Id = (d.getD 1 0).toNat := by
  unfold EAP.DecodeFromBytes at h
  dsimp only at h
  split_ifs at h <;> (injection h with h; subst h; exact ⟨rfl, rfl⟩)

/-- The first EAP layer among the layers decoded after an EAPOL header of type
EAP-Packet. -/
theorem find_EAP_decodeEAP (d : List UInt8) :
    (NextDecoder decodeEAP d).find? (fun l => decide (l.LayerType = LayerType.EAP))
      = (EAP.DecodeFromBytes d).map Layer.eap := by
  unfold NextDecoder decodeEAP
  by_cases h0 : d.length = 0
  · have : EAP.DecodeFromBytes d = none := by simp [EAP.DecodeFromBytes, h0]
    simp [h0, this]
  · cases he : EAP.DecodeFromBytes d <;> simp [h0, Layer.LayerType]

theorem find_EAP_other (ids : List Nat) :
    (ids.map Layer.other).find? (fun l => decide (l.LayerType = LayerType.EAP)) = none := by
  induction ids with
  | nil => rfl
  | cons i ids ih => simp [Layer.LayerType]

/-- The first EAP layer among the layers decoded from an EAPOL header and its body. -/
theorem find_EAP_decodeEAPOL (reg : Decoders) (d : List UInt8) (h4 : 4 ≤ d.length) :
    (NextDecoder (decodeEAPOL reg) d).find? (fun l => decide (l.LayerType = LayerType.EAP))
      = if (d.getD 1 0).toNat = EAPOLTypeEAP
        then (EAP.DecodeFromBytes (d.drop 4)).map Layer.eap else none := by
  have h0 : ¬ d.length = 0 := by omega
  simp only [NextDecoder, h0, if_false, decodeEAPOL_of_length reg _ h4]
  rw [List.find?_cons_of_neg _ (by simp [Layer.LayerType])]
  by_cases ht : (d.getD 1 0).toNat = EAPOLTypeEAP
  · have := find_EAP_decodeEAP (d.drop 4)
    simp only [NextDecoder] at this
    simp only [ht, if_true, this]
  · simp only [ht, if_false]
    by_cases hk : (d.getD 1 0).toNat = EAPOLTypeKey
    · simp only [hk, if_true]
      split
      · rfl
      · exact find_EAP_other _
    · simp only [hk, if_false]
      rfl

theorem expectedEAP_cons (l : Layer) (ls : List Layer)
    (h : ¬ l.LayerType = LayerType.EAPOL) : expectedEAP (l :: ls) = expectedEAP ls := by
  unfold expectedEAP
  rw [List.find?_cons_of_neg _ (by simpa using h)]

/-- The layers the embedded EAPOL decoder adds have their EAP layer where expected. -/
theorem expectedEAP_decodeEAPOL (reg : Decoders) (d : List UInt8) :
    (NextDecoder (decodeEAPOL reg) d).find? (fun l => decide (l.LayerType = LayerType.EAP))
      = expectedEAP (NextDecoder (decodeEAPOL reg) d) := by
  by_cases h4 : 4 ≤ d.length
  · rw [find_EAP_decodeEAPOL reg d h4]
    unfold expectedEAP
    rw [find_EAPOL_NextDecoder, if_pos h4]
  · unfold expectedEAP
    rw [find_EAPOL_NextDecoder, if_neg h4]
    unfold NextDecoder
    by_cases h0 : d.length = 0
    · simp [h0]
    · simp [h0, decodeEAPOL_short reg d (by omega), Layer.LayerType]

/-- With decoders as assumed, every packet decoded from Ethernet has its EAP layer
where expected. -/
theorem expectedEAP_decodeEthernet (reg : Decoders) (hreg : reg.EAPOnlyAfterEAPOL)
    (data : List UInt8) :
    (decodeEthernet reg data).find? (fun l => decide (l.LayerType = LayerType.EAP))
      = expectedEAP (decodeEthernet reg data) := by
  unfold decodeEthernet
  cases Ethernet.DecodeFromBytes data with
  | none => rfl
  | some eth =>
    simp only []
    rw [List.find?_cons_of_neg _ (by simp [Layer.LayerType]),
      expectedEAP_cons _ _ (by simp [Layer.LayerType])]
    by_cases h0 : eth.Payload.length = 0
    · simp only [NextDecoder, h0, if_true]
      rfl
    · by_cases hE : eth.EthernetType = EthernetTypeEAPOL
      · rw [hE, EthernetType.Decode_EAPOL]
        exact expectedEAP_decodeEAPOL reg eth.Payload
      · by_cases hQ : eth.EthernetType = EthernetTypeDot1Q
        · rw [hQ, EthernetType.Decode_Dot1Q]
          simp only [NextDecoder, h0, if_false, decodeDot1Q]
          cases Dot1Q.DecodeFromBytes eth.Payload with
          | none => rfl
          | some dq =>
            simp only []
            rw [List.find?_cons_of_neg _ (by simp [Layer.LayerType]),
              expectedEAP_cons _ _ (by simp [Layer.LayerType])]
            by_cases hT : dq.Type_ = EthernetTypeEAPOL
            · simp only [hT, if_true]
              exact expectedEAP_decodeEAPOL reg dq.Payload
            · simp only [hT, if_false]
              exact hreg.2 _ _
        · simp only [NextDecoder, h0, if_false, EthernetType.Decode, hE, hQ]
          exact hreg.1 _ _

/-- The library with nothing else registered is as assumed. -/
theorem unregistered_EAPOnlyAfterEAPOL : Decoders.unregistered.EAPOnlyAfterEAPOL :=
  ⟨fun _ _ => rfl, fun _ _ => rfl⟩

/-- What an EAP layer decoded from the body of an EAPOL frame of type `t` amounts to. -/
theorem EAP_of_body (t : Nat) (body : List UInt8) (o : Option Layer)
    (h : o = if t = EAPOLTypeEAP then (EAP.DecodeFromBytes body).map Layer.eap else none) :
    (o ≠ none ↔ t = EAPOLTypeEAP ∧ 4 ≤ body.length ∧
        4 ≤ Uint16 (body.getD 2 0) (body.getD 3 0) ∧
        Uint16 (body.getD 2 0) (body.getD 3 0) ≤ body.length) ∧
    (∀ l, o = some l → ∃ eap, l = Layer.eap eap ∧ eap.Code = (body.getD 0 0).toNat ∧
        eap.Id = (body.getD 1 0).toNat) := by
  subst h
  have hiff := EAP.DecodeFromBytes_eq_some_iff body
  by_cases ht : t = EAPOLTypeEAP
  · simp only [ht, if_true, true_and]
    constructor
    · rw [← hiff]
      cases EAP.DecodeFromBytes body <;> simp
    · intro l hl
      cases he : EAP.DecodeFromBytes body with
      | none => simp [he] at hl
      | some e =>
        simp only [he, Option.map_some', Option.some.injEq] at hl
        exact ⟨e, hl.symm, EAP.DecodeFromBytes_fields he⟩
  · simp [ht]

/-- The first EAP layer of a frame whose Ethernet type is EAPOL. -/
theorem Layer_EAP_of_EAPOL (reg : Decoders) (data : List UInt8) (hlen : 18 ≤ data.length)
    (htype : Uint16 (data.getD 12 0) (data.getD 13 0) = EthernetTypeEAPOL) :
    (NewPacket reg data).Layer LayerType.EAP
      = if (data.getD 15 0).toNat = EAPOLTypeEAP
        then (EAP.DecodeFromBytes (data.drop 18)).map Layer.eap else none := by
  have h4 : 4 ≤ (data.drop 14).length := by simp; omega
  have hd : (data.drop 14).drop 4 = data.drop 18 := by simp
  simp only [Packet.Layer, NewPacket, decodeEthernet_EAPOL reg data (by omega) htype]
  rw [List.find?_cons_of_neg _ (by simp [Layer.LayerType]),
    find_EAP_decodeEAPOL reg _ h4, hd, getD_drop]

/-- The first EAP layer of a frame whose 802.1Q tag carries EAPOL. -/
theorem Layer_EAP_of_Dot1Q (reg : Decoders) (data : List UInt8) (hlen : 22 ≤ data.length)
    (htype : Uint16 (data.getD 12 0) (data.getD 13 0) = EthernetTypeDot1Q)
    (hinner : Uint16 (data.getD 16 0) (data.getD 17 0) = EthernetTypeEAPOL) :
    (NewPacket reg data).Layer LayerType.EAP
      = if (data.getD 19 0).toNat = EAPOLTypeEAP
        then (EAP.DecodeFromBytes (data.drop 22)).map Layer.eap else none := by
  have h0 : ¬ (data.drop 14).length = 0 := by simp; omega
  have h4 : ¬ (data.drop 14).length < 4 := by simp; omega
  have h8 : 4 ≤ ((data.drop 14).drop 4).length := by simp; omega
  have hd : ((data.drop 14).drop 4).drop 4 = data.drop 22 := by simp
  have hinner2 : Uint16 ((data.drop 14).getD 2 0) ((data.drop 14).getD 3 0)
      = EthernetTypeEAPOL := by
    rw [getD_drop, getD_drop]
    exact hinner
  have h19 : ((data.drop 14).drop 4).getD 1 0 = data.getD 19 0 := by
    rw [getD_drop, getD_drop]
  simp only [Packet.Layer, NewPacket, decodeEthernet_Dot1Q reg data (by omega) htype]
  rw [List.find?_cons_of_neg _ (by simp [Layer.LayerType])]
  simp only [NextDecoder, h0, if_false, decodeDot1Q, Dot1Q.DecodeFromBytes, h4, hinner2,
    if_true]
  rw [List.find?_cons_of_neg _ (by simp [Layer.LayerType])]
  have := find_EAP_decodeEAPOL reg ((data.drop 14).drop 4) h8
  simp only [NextDecoder] at this
  rw [this, hd, h19]

/-- A frame whose 802.1Q tag carries EAPOL is classified exactly when it has 22
bytes. -/
theorem classified_Dot1Q_iff (reg : Decoders) (data : List UInt8)
    (htype : Uint16 (data.getD 12 0) (data.getD 13 0) = EthernetTypeDot1Q)
    (hinner : Uint16 (data.getD 16 0) (data.getD 17 0) = EthernetTypeEAPOL) :
    (parsePacket reg data).2 ≠ none ↔ 22 ≤ data.length := by
  by_cases h14 : data.length < 14
  · have hnone : (parsePacket reg data).2 = none := by
      by_contra hne
      obtain ⟨l, hl⟩ := (parsePacket_ne_none_iff reg data).1 hne
      have := (NewPacket_ethernet_of_eapol hl).1
      omega
    simp [hnone]
    omega
  · rw [parsePacket_ne_none_iff]
    simp only [Packet.Layer, NewPacket, decodeEthernet_Dot1Q reg data (by omega) htype]
    rw [List.find?_cons_of_neg _ (by simp [Layer.LayerType])]
    have hinner2 : Uint16 ((data.drop 14).getD 2 0) ((data.drop 14).getD 3 0)
        = EthernetTypeEAPOL := by
      rw [getD_drop, getD_drop]
      exact hinner
    have hf := find_EAPOL_Dot1Q reg (data.drop 14) hinner2
    rw [← Option.isSome_iff_exists, hf]
    simp
    omega


/-- A frame whose Ethernet type is EAPOL is classified exactly when it has 18 bytes. -/
theorem classified_EAPOL_iff (reg : Decoders) (data : List UInt8)
    (htype : Uint16 (data.getD 12 0) (data.getD 13 0) = EthernetTypeEAPOL) :
    (parsePacket reg data).2 ≠ none ↔ 18 ≤ data.length := by
  by_cases h14 : data.length < 14
  · have hnone : (parsePacket reg data).2 = none := by
      by_contra hne
      obtain ⟨l, hl⟩ := (parsePacket_ne_none_iff reg data).1 hne
      have := (NewPacket_ethernet_of_eapol hl).1
      omega
    simp [hnone]
    omega
  · rw [parsePacket_ne_none_iff]
    simp only [Packet.Layer, NewPacket, decodeEthernet_EAPOL reg data (by omega) htype]
    rw [List.find?_cons_of_neg _ (by simp [Layer.LayerType]), find_EAPOL_NextDecoder]
    by_cases h18 : 18 ≤ data.length
    · simp [h18]
      omega
    · simp [h18]
      omega


/-- The six bytes `data[lo:lo+6]`, one by one. -/
theorem slice_six (data : List UInt8) (lo : Nat) (h : lo + 6 ≤ data.length) :
    slice data lo (lo + 6)
      = [data.getD lo 0, data.getD (lo + 1) 0, data.getD (lo + 2) 0,
         data.getD (lo + 3) 0, data.getD (lo + 4) 0, data.getD (lo + 5) 0] := by
  apply List.ext_getElem
  · simp [slice]
    omega
  · intro i h1 h2
    have hi : i < 6 := by simpa using h2
    have hget : (slice data lo (lo + 6))[i] = data.getD (lo + i) 0 := by
      rw [List.getD_eq_getElem data 0 (show lo + i < data.length by omega)]
      simp [slice, List.getElem_take]
    rw [hget]
    match i, hi with
    | 0, _ => rfl
    | 1, _ => rfl
    | 2, _ => rfl
    | 3, _ => rfl
    | 4, _ => rfl
    | 5, _ => rfl


/-! ## The classifier -/

/-- C3: on a byte sequence made of a 14-byte Ethernet header whose type field (bytes
12..13) is 0x888E and at least 4 more bytes, `parsePacket` returns a packet, and the
fields `printPacketInfo` reads from it are those of the input: destination MAC = the
six bytes 0..5, source MAC = the six bytes 6..11, EAPOL version = byte 14, EAPOL type = byte 15, EAPOL
length = bytes 16..17, big-endian. -/
theorem parsePacket_decodes_headers (reg : Decoders) (data : List UInt8)
    (hlen : 18 ≤ data.length) (h12 : data[12] = 0x88) (h13 : data[13] = 0x8E) :
    ∃ p eth eapol, (parsePacket reg data).2 = some p ∧
      p.Layer LayerType.Ethernet = some (Layer.ethernet eth) ∧
      p.Layer LayerType.EAPOL = some (Layer.eapol eapol) ∧
      eth.DstMAC = [data[0], data[1], data[2], data[3], data[4], data[5]] ∧
      eth.SrcMAC = [data[6], data[7], data[8], data[9], data[10], data[11]] ∧
      eapol.Version = data[14].toNat ∧ eapol.Type_ = data[15].toNat ∧
      eapol.Length = data[16].toNat * 256 + data[17].toNat := by
  have htype : Uint16 (data.getD 12 0) (data.getD 13 0) = EthernetTypeEAPOL := by
    rw [List.getD_eq_getElem _ _ (by omega), List.getD_eq_getElem _ _ (by omega), h12, h13]
    decide
  have h4 : 4 ≤ (data.drop 14).length := by simp; omega
  have hE : (NewPacket reg data).Layer LayerType.EAPOL = some (Layer.eapol
      { Version := ((data.drop 14).getD 0 0).toNat, Type_ := ((data.drop 14).getD 1 0).toNat,
        Length := Uint16 ((data.drop 14).getD 2 0) ((data.drop 14).getD 3 0),
        Payload := (data.drop 14).drop 4 }) := by
    simp only [Packet.Layer, NewPacket, decodeEthernet_EAPOL reg data (by omega) htype]
    rw [List.find?_cons_of_neg _ (by simp [Layer.LayerType]), find_EAPOL_NextDecoder, if_pos h4]
  refine ⟨NewPacket reg data,
    { SrcMAC := slice data 6 12, DstMAC := slice data 0 6,
      EthernetType := EthernetTypeEAPOL, Length := 0, Payload := data.drop 14 },
    _, ?_, ?_, hE, ?_, ?_, ?_, ?_, ?_⟩
  · simp [parsePacket, hE]
  · simp [Packet.Layer, NewPacket, decodeEthernet_EAPOL reg data (by omega) htype,
      Layer.LayerType]
  · show slice data 0 (0 + 6) = _
    rw [slice_six data 0 (by omega)]
    simp only [Nat.zero_add]
    rw [List.getD_eq_getElem data 0 (show 0 < data.length by omega),
      List.getD_eq_getElem data 0 (show 1 < data.length by omega),
      List.getD_eq_getElem data 0 (show 2 < data.length by omega),
      List.getD_eq_getElem data 0 (show 3 < data.length by omega),
      List.getD_eq_getElem data 0 (show 4 < data.length by omega),
      List.getD_eq_getElem data 0 (show 5 < data.length by omega)]
  · show slice data 6 (6 + 6) = _
    rw [slice_six data 6 (by omega)]
    rw [List.getD_eq_getElem data 0 (show 6 < data.length by omega),
      List.getD_eq_getElem data 0 (show 6 + 1 < data.length by omega),
      List.getD_eq_getElem data 0 (show 6 + 2 < data.length by omega),
      List.getD_eq_getElem data 0 (show 6 + 3 < data.length by omega),
      List.getD_eq_getElem data 0 (show 6 + 4 < data.length by omega),
      List.getD_eq_getElem data 0 (show 6 + 5 < data.length by omega)]
  · show ((data.drop 14).getD 0 0).toNat = _
    rw [getD_drop, List.getD_eq_getElem _ _ (by omega)]
  · show ((data.drop 14).getD 1 0).toNat = _
    rw [getD_drop, List.getD_eq_getElem _ _ (by omega)]
  · show Uint16 ((data.drop 14).getD 2 0) ((data.drop 14).getD 3 0) = _
    rw [getD_drop, getD_drop, Uint16_eq,
      List.getD_eq_getElem data 0 (show 14 + 2 < data.length by omega),
      List.getD_eq_getElem data 0 (show 14 + 3 < data.length by omega)]

theorem parsePacket_decodes_headers_witness :
    ∃ p eth eapol, (parsePacket Decoders.unregistered frameRequest).2 = some p ∧
      p.Layer LayerType.Ethernet = some (Layer.ethernet eth) ∧
      p.Layer LayerType.EAPOL = some (Layer.eapol eapol) ∧
      eth.DstMAC = [0x01, 0x80, 0xc2, 0x00, 0x00, 0x03] ∧
      eth.SrcMAC = [0xaa, 0xaa, 0xaa, 0xaa, 0xaa, 0xaa] ∧
      eapol.Version = 1 ∧ eapol.Type_ = 0 ∧ eapol.Length = 0 * 256 + 5 :=
  parsePacket_decodes_headers Decoders.unregistered frameRequest (by decide) (by decide)
    (by decide)

/-- C4, the claim refuted: `parsePacket` returns a packet for a frame whose Ethernet
type field is 0x8100, an 802.1Q tag that carries EAPOL. -/
theorem parsePacket_VLAN_counterexample :
    Uint16 (frameVLAN.getD 12 0) (frameVLAN.getD 13 0) = 0x8100 ∧
      (parsePacket Decoders.unregistered frameVLAN).2 ≠ none := by
  decide

/-- C4 as amended: `parsePacket` returns a packet, the decoded input, exactly when the
layers decoded from the input hold an EAPOL layer (if and only if), which takes a
complete 14-byte Ethernet header: every input shorter than 14 bytes yields nil; an input whose Ethernet type field is 0x888E
yields a packet exactly when it has at least 18 bytes; an input whose Ethernet type
field is 0x8100 and whose 802.1Q tag carries the type 0x888E yields a packet exactly
when it has at least 22 bytes. -/
theorem parsePacket_classification (reg : Decoders) (data : List UInt8) :
    ((parsePacket reg data).2 ≠ none ↔
      ∃ l, (NewPacket reg data).Layer LayerType.EAPOL = some l) ∧
    ((parsePacket reg data).2 ≠ none →
      14 ≤ data.length ∧ (parsePacket reg data).2 = some (NewPacket reg data)) ∧
    (data.length < 14 → (parsePacket reg data).2 = none) ∧
    (Uint16 (data.getD 12 0) (data.getD 13 0) = EthernetTypeEAPOL →
      ((parsePacket reg data).2 ≠ none ↔ 18 ≤ data.length)) ∧
    (Uint16 (data.getD 12 0) (data.getD 13 0) = EthernetTypeDot1Q →
      Uint16 (data.getD 16 0) (data.getD 17 0) = EthernetTypeEAPOL →
      ((parsePacket reg data).2 ≠ none ↔ 22 ≤ data.length)) := by
  have hshort : data.length < 14 → (parsePacket reg data).2 = none := by
    intro h
    by_contra hne
    obtain ⟨l, hl⟩ := (parsePacket_ne_none_iff reg data).1 hne
    have := (NewPacket_ethernet_of_eapol hl).1
    omega
  refine ⟨parsePacket_ne_none_iff reg data, ?_, hshort, ?_, ?_⟩
  · intro hne
    obtain ⟨l, hl⟩ := (parsePacket_ne_none_iff reg data).1 hne
    refine ⟨(NewPacket_ethernet_of_eapol hl).1, ?_⟩
    cases hp : (parsePacket reg data).2 with
    | none => exact absurd hp hne
    | some p => rw [(parsePacket_some hp).2.1]
  · exact classified_EAPOL_iff reg data
  · exact classified_Dot1Q_iff reg data

theorem parsePacket_classification_witness :
    (parsePacket Decoders.unregistered frameNoBody).2 ≠ none ↔ 18 ≤ frameNoBody.length :=
  (parsePacket_classification Decoders.unregistered frameNoBody).2.2.2.1 (by decide)

/-! ## The log line -/

/-- C10, the claim refuted: a frame classified as EAPOL whose EAPOL type is EAP-Packet
(0) and whose body is missing has no decoded EAP message. -/
theorem EAP_absent_counterexample :
    (parsePacket Decoders.unregistered frameNoBody).2
        = some (NewPacket Decoders.unregistered frameNoBody) ∧
      (NewPacket Decoders.unregistered frameNoBody).Layer LayerType.EAPOL
        = some (Layer.eapol { Version := 1, Type_ := 0, Length := 0, Payload := [] }) ∧
      (NewPacket Decoders.unregistered frameNoBody).Layer LayerType.EAP = none := by
  decide

/-- C10 as amended: for every classified frame, the decoded EAP message is present
exactly when the type of its first EAPOL layer is EAP-Packet (0) and the body of that
layer holds a well-formed EAP header: at least 4 bytes, with an EAP length field of at
least 4 and at most the length of the body. It is absent for every other EAPOL type.
When present, its code is the first byte of that body and its identifier the second.
This holds whatever the other decoders do for a frame with Ethernet type 0x888E (type
field in byte 15, body from byte 18) and for a frame with Ethernet type 0x8100 whose
802.1Q tag carries the type 0x888E (type field in byte 19, body from byte 22); for a
frame that reaches its EAPOL layer through another decoder it holds when, as in
gopacket, only the EAPOL decoder hands a payload to the EAP decoder. -/
theorem EAP_layer_iff (reg : Decoders) (data : List UInt8) :
    (18 ≤ data.length → Uint16 (data.getD 12 0) (data.getD 13 0) = EthernetTypeEAPOL →
      (parsePacket reg data).2 = some (NewPacket reg data) ∧
      ((NewPacket reg data).Layer LayerType.EAP ≠ none ↔
        (data.getD 15 0).toNat = EAPOLTypeEAP ∧ 22 ≤ data.length ∧
          4 ≤ Uint16 (data.getD 20 0) (data.getD 21 0) ∧
          18 + Uint16 (data.getD 20 0) (data.getD 21 0) ≤ data.length) ∧
      (∀ l, (NewPacket reg data).Layer LayerType.EAP = some l →
        ∃ eap, l = Layer.eap eap ∧ eap.Code = (data.getD 18 0).toNat ∧
          eap.Id = (data.getD 19 0).toNat)) ∧
    (22 ≤ data.length → Uint16 (data.getD 12 0) (data.getD 13 0) = EthernetTypeDot1Q →
      Uint16 (data.getD 16 0) (data.getD 17 0) = EthernetTypeEAPOL →
      (parsePacket reg data).2 = some (NewPacket reg data) ∧
      ((NewPacket reg data).Layer LayerType.EAP ≠ none ↔
        (data.getD 19 0).toNat = EAPOLTypeEAP ∧ 26 ≤ data.length ∧
          4 ≤ Uint16 (data.getD 24 0) (data.getD 25 0) ∧
          22 + Uint16 (data.getD 24 0) (data.getD 25 0) ≤ data.length) ∧
      (∀ l, (NewPacket reg data).Layer LayerType.EAP = some l →
        ∃ eap, l = Layer.eap eap ∧ eap.Code = (data.getD 22 0).toNat ∧
          eap.Id = (data.getD 23 0).toNat)) ∧
    (reg.EAPOnlyAfterEAPOL → ∀ p, (parsePacket reg data).2 = some p →
      ∃ eapol, p.Layer LayerType.EAPOL = some (Layer.eapol eapol) ∧
        (p.Layer LayerType.EAP ≠ none ↔
          eapol.Type_ = EAPOLTypeEAP ∧ 4 ≤ eapol.Payload.length ∧
            4 ≤ Uint16 (eapol.Payload.getD 2 0) (eapol.Payload.getD 3 0) ∧
            Uint16 (eapol.Payload.getD 2 0) (eapol.Payload.getD 3 0)
              ≤ eapol.Payload.length) ∧
        (∀ l, p.Layer LayerType.EAP = some l →
          ∃ eap, l = Layer.eap eap ∧ eap.Code = (eapol.Payload.getD 0 0).toNat ∧
            eap.Id = (eapol.Payload.getD 1 0).toNat)) := by
  have hsome : (parsePacket reg data).2 ≠ none →
      (parsePacket reg data).2 = some (NewPacket reg data) := by
    intro hne
    cases hp : (parsePacket reg data).2 with
    | none => exact absurd hp hne
    | some p => rw [(parsePacket_some hp).2.1]
  refine ⟨?_, ?_, ?_⟩
  · intro hlen htype
    have hbody := EAP_of_body (data.getD 15 0).toNat (data.drop 18) _
      (Layer_EAP_of_EAPOL reg data hlen htype)
    have hl18 : (data.drop 18).length = data.length - 18 := List.length_drop _ _
    rw [getD_drop, getD_drop, getD_drop, getD_drop, hl18] at hbody
    refine ⟨hsome ((classified_EAPOL_iff reg data htype).2 hlen), ?_, hbody.2⟩
    rw [hbody.1]
    show _ ∧ _ ∧ 4 ≤ Uint16 (data.getD 20 0) (data.getD 21 0) ∧
      Uint16 (data.getD 20 0) (data.getD 21 0) ≤ _ ↔ _
    generalize Uint16 (data.getD 20 0) (data.getD 21 0) = L
    omega
  · intro hlen htype hinner
    have hbody := EAP_of_body (data.getD 19 0).toNat (data.drop 22) _
      (Layer_EAP_of_Dot1Q reg data hlen htype hinner)
    have hl22 : (data.drop 22).length = data.length - 22 := List.length_drop _ _
    rw [getD_drop, getD_drop, getD_drop, getD_drop, hl22] at hbody
    refine ⟨hsome ((classified_Dot1Q_iff reg data htype hinner).2 (by omega)), ?_, hbody.2⟩
    rw [hbody.1]
    show _ ∧ _ ∧ 4 ≤ Uint16 (data.getD 24 0) (data.getD 25 0) ∧
      Uint16 (data.getD 24 0) (data.getD 25 0) ≤ _ ↔ _
    generalize Uint16 (data.getD 24 0) (data.getD 25 0) = L
    omega
  · intro hreg p hp
    obtain ⟨-, hnew, l, hl⟩ := parsePacket_some hp
    obtain ⟨e, he⟩ := eapol_of_layerType (layerType_of_Layer hl)
    subst he
    subst hnew
    refine ⟨e, hl, ?_⟩
    have hexp := expectedEAP_decodeEthernet reg hreg data
    have hfind : (decodeEthernet reg data).find?
        (fun l => decide (l.LayerType = LayerType.EAPOL)) = some (Layer.eapol e) := hl
    unfold expectedEAP at hexp
    rw [hfind] at hexp
    exact EAP_of_body e.Type_ e.Payload _ hexp

theorem EAP_layer_iff_witness :
    ((NewPacket Decoders.unregistered frameVLANRequest).Layer LayerType.EAP ≠ none ↔
      (frameVLANRequest.getD 19 0).toNat = EAPOLTypeEAP ∧ 26 ≤ frameVLANRequest.length ∧
        4 ≤ Uint16 (frameVLANRequest.getD 24 0) (frameVLANRequest.getD 25 0) ∧
        22 + Uint16 (frameVLANRequest.getD 24 0) (frameVLANRequest.getD 25 0)
          ≤ frameVLANRequest.length) ∧
    ∃ eapol,
      (NewPacket Decoders.unregistered frameRequest).Layer LayerType.EAPOL
        = some (Layer.eapol eapol) ∧
      ∀ l, (NewPacket Decoders.unregistered frameRequest).Layer LayerType.EAP = some l →
        ∃ eap, l = Layer.eap eap ∧ eap.Code = (eapol.Payload.getD 0 0).toNat ∧
          eap.Id = (eapol.Payload.getD 1 0).toNat :=
  ⟨((EAP_layer_iff Decoders.unregistered frameVLANRequest).2.1 (by decide) (by decide)
      (by decide)).2.1,
   match (EAP_layer_iff Decoders.unregistered frameRequest).2.2
      unregistered_EAPOnlyAfterEAPOL (NewPacket Decoders.unregistered frameRequest)
      (by decide) with
   | ⟨eapol, h1, _, h3⟩ => ⟨eapol, h1, h3⟩⟩

/-- C7, the claim refuted: the line built for the frame of the claim, read on "wan"
with destination "router", is not the line the claim gives. -/
theorem printPacketInfo_line_counterexample :
    printPacketInfo "wan" "router" (NewPacket Decoders.unregistered frameRequest)
      ≠ some ("wan: AA:AA:AA:AA:AA:AA > 01:80:c2:00:00:03, " ++
          "EAP-Packet v1, len 5, Request (1) id 10 > router") := by
  decide

/-- C7 as amended: for every classified frame the line built by `printPacketInfo` is
`<src>: <srcMAC> > <dstMAC>, <eapolType> v<version>, len <n>`, then
`, <eapCodeName> (<code>) id <id>` when an EAP message was decoded, then ` > <dst>`,
where a MAC address is written in lower-case hexadecimal and `<eapolType>` is the name
the library gives the EAPOL type ("EAP" for EAP-Packet); for the frame of the claim,
read on "wan" with destination "router", the line is
`wan: aa:aa:aa:aa:aa:aa > 01:80:c2:00:00:03, EAP v1, len 5, Request (1) id 10 > router`. -/
theorem printPacketInfo_line :
    (∀ (reg : Decoders) (src dst : String) (data : List UInt8) (p : Packet),
      (parsePacket reg data).2 = some p →
      ∃ eth eapol, p.Layer LayerType.Ethernet = some (Layer.ethernet eth) ∧
        p.Layer LayerType.EAPOL = some (Layer.eapol eapol) ∧
        ((p.Layer LayerType.EAP = none ∧
          printPacketInfo src dst p = some (src ++ ": " ++
            HardwareAddr.String eth.SrcMAC ++ " > " ++ HardwareAddr.String eth.DstMAC ++
            ", " ++ EAPOLType.String eapol.Type_ ++ " v" ++ fmtD eapol.Version ++
            ", len " ++ fmtD eapol.Length ++ " > " ++ dst)) ∨
         (∃ eap, p.Layer LayerType.EAP = some (Layer.eap eap) ∧
          printPacketInfo src dst p = some (src ++ ": " ++
            HardwareAddr.String eth.SrcMAC ++ " > " ++ HardwareAddr.String eth.DstMAC ++
            ", " ++ EAPOLType.String eapol.Type_ ++ " v" ++ fmtD eapol.Version ++
            ", len " ++ fmtD eapol.Length ++
            ", " ++ EAPTypeString eap.Code ++ " (" ++ fmtD eap.Code ++ ") id " ++
            fmtD eap.Id ++ " > " ++ dst)))) ∧
    (∀ reg : Decoders,
      (parsePacket reg frameRequest).2 = some (NewPacket reg frameRequest) ∧
      printPacketInfo "wan" "router" (NewPacket reg frameRequest)
        = some ("wan: aa:aa:aa:aa:aa:aa > 01:80:c2:00:00:03, " ++
            "EAP v1, len 5, Request (1) id 10 > router")) := by
  constructor
  · intro reg src dst data p hp
    obtain ⟨-, hnew, l, hl⟩ := parsePacket_some hp
    obtain ⟨e, he⟩ := eapol_of_layerType (layerType_of_Layer hl)
    subst he
    have heth : ∃ eth, p.Layer LayerType.Ethernet = some (Layer.ethernet eth) := by
      subst hnew
      obtain ⟨-, eth, -, heth⟩ := NewPacket_ethernet_of_eapol hl
      exact ⟨eth, heth⟩
    obtain ⟨eth, heth⟩ := heth
    refine ⟨eth, e, heth, hl, ?_⟩
    cases hq : p.Layer LayerType.EAP with
    | none =>
      left
      refine ⟨rfl, ?_⟩
      simp only [printPacketInfo, heth, hl, hq, Option.bind, Layer.asEthernet, Layer.asEAPOL,
        String.append_assoc]
    | some q =>
      right
      obtain ⟨a, ha⟩ := eap_of_layerType (layerType_of_Layer hq)
      subst ha
      refine ⟨a, rfl, ?_⟩
      simp only [printPacketInfo, heth, hl, hq, Option.bind, Layer.asEthernet, Layer.asEAPOL,
        Layer.asEAP, String.append_assoc]
  · intro reg
    exact ⟨rfl, rfl⟩

theorem printPacketInfo_line_witness :
    ∃ eth eapol,
      (NewPacket Decoders.unregistered frameNoBody).Layer LayerType.Ethernet
        = some (Layer.ethernet eth) ∧
      (NewPacket Decoders.unregistered frameNoBody).Layer LayerType.EAPOL
        = some (Layer.eapol eapol) ∧
      printPacketInfo "wan" "router" (NewPacket Decoders.unregistered frameNoBody)
        = some ("wan" ++ ": " ++
            HardwareAddr.String eth.SrcMAC ++ " > " ++ HardwareAddr.String eth.DstMAC ++
            ", " ++ EAPOLType.String eapol.Type_ ++ " v" ++ fmtD eapol.Version ++
            ", len " ++ fmtD eapol.Length ++ " > " ++ "router") :=
  match printPacketInfo_line.1 Decoders.unregistered "wan" "router" frameNoBody
      (NewPacket Decoders.unregistered frameNoBody) (by decide) with
  | ⟨eth, eapol, h1, h2, Or.inl h3⟩ => ⟨eth, eapol, h1, h2, h3.2⟩
  | ⟨_, _, _, _, Or.inr ⟨_, h3, _⟩⟩ => by
    have hnone : (NewPacket Decoders.unregistered frameNoBody).Layer LayerType.EAP = none := by
      decide
    rw [hnone] at h3
    exact absurd h3 (by simp)

end GoeapProxy
